import Mathlib

/-!
Verification of the resilient Google scraper (`scrape_google.py`).

The development shallowly embeds the pieces of `ResilientGoogleScraper`
that the specification talks about:

* `extract_results` — result parsing over a list of candidate blocks
  (`div.MjjYud` matches), mirroring the loop at lines 448-508 of the source;
* a model of Python's `urllib.parse.urlparse(...).netloc`, used for the
  `domain` field;
* `stop` / `start` / `_safe_quit` — the session lifecycle state machine;
* `_try_open_domain_variations` — domain candidate probing;
* `_accept_cookies_resilient` — the consent resolver;
* `_direct_search` / `search` — query submission with its direct-URL
  fallback, including models of Python's `str.split`, `quote_plus` and
  `urlencode`.

Stateful, exception-throwing Python is modelled with explicit environments
that record which external operations succeed or fail; a `try/except` that
swallows an exception becomes a total function consuming the environment's
failure flags.
-/

namespace Scraper

/-- The record emitted by the extractor (dataclass `SearchResult`).
`rank` is a Python `int`, modelled as `Int`. -/
structure SearchResult where
  rank : Int
  title : String
  snippet : String
  url : String
  domain : String
deriving DecidableEq, Repr

/-! ### Python `urllib.parse.urlparse(...).netloc`

`urlsplit` strips a scheme prefix `scheme:` when the text before the first
colon is non-empty, starts with an ASCII letter and consists of letters,
digits, `+`, `-`, `.`; the netloc is then the segment after a leading `//`,
up to the first `/`, `?` or `#`; otherwise the netloc is empty. -/

/-- Characters allowed in a URL scheme after the first (CPython
`scheme_chars`). -/
def isSchemeChar (c : Char) : Bool :=
  c.isAlpha || c.isDigit || c == '+' || c == '-' || c == '.'

/-- Split off a valid `scheme:` prefix, returning `(scheme, rest)` if the
prefix before the first colon is a well-formed scheme. -/
def splitScheme (l : List Char) : Option (List Char × List Char) :=
  let pre := l.takeWhile (fun c => !(c == ':'))
  if pre.length == l.length then
    none
  else
    match pre with
    | [] => none
    | c :: cs =>
      if c.isAlpha && (c :: cs).all isSchemeChar then
        some (pre, l.drop (pre.length + 1))
      else none

/-- The URL with any valid scheme prefix removed. -/
def schemeRest (l : List Char) : List Char :=
  match splitScheme l with
  | some (_, rest) => rest
  | none => l

/-- Stop characters that end the netloc segment. -/
def isNetlocEnd (c : Char) : Bool :=
  c == '/' || c == '?' || c == '#'

/-- The netloc (host) component, as a character list. -/
def netlocList (l : List Char) : List Char :=
  let r := schemeRest l
  if r.take 2 = ['/', '/'] then
    (r.drop 2).takeWhile (fun c => !(isNetlocEnd c))
  else []

/-- Model of `urlparse(url).netloc`. -/
def urlparseNetloc (s : String) : String :=
  String.mk (netlocList s.toList)

/-- A URL carries an authority component: after removing any scheme it
starts with `//`. -/
def hasAuthority (s : String) : Bool :=
  (schemeRest s.toList).take 2 == ['/', '/']

/-- A well-formed absolute URL: a valid scheme followed by an authority. -/
def wellFormedAbsoluteUrl (s : String) : Bool :=
  (splitScheme s.toList).isSome && hasAuthority s

/-- The host component of a URL, as `urlparse` extracts it. -/
def urlHost (s : String) : String := urlparseNetloc s

/-! ### Result extraction (`extract_results`, lines 448-508)

A candidate block is one `div.MjjYud` element of the parsed page, reduced
to the three queries the loop performs on it:
`result.select_one("div.yuRUbf a")` (an element with an optional `href`
attribute), `result.select_one("h3")` (its stripped text), and
`result.select_one(".IsZvec, .VwiC3b, span.aCOpRe, .s3v9rd, .st")`
(stripped text of the first snippet-class match). -/

/-- One candidate result block of the parsed page. -/
structure Block where
  /-- `select_one("div.yuRUbf a")`: `some h` when a primary link element
  exists, `h` its optional `href` attribute. -/
  mainLink : Option (Option String)
  /-- `select_one("h3")`: stripped text of the heading, when present. -/
  h3 : Option String
  /-- first snippet-class match: its stripped text, when present. -/
  snippetEl : Option String
deriving DecidableEq, Repr

/-- A block that passes `if not main_link or not h3: continue`. -/
def blockOk (b : Block) : Bool :=
  b.mainLink.isSome && b.h3.isSome

/-- The `SearchResult` built from an accepted block at a given rank:
`href = main_link.get("href", "—")`, `snippet` defaults to `"—"`,
`domain = urlparse(href).netloc`. -/
def blockResult (rank : Int) (b : Block) : SearchResult :=
  let href := (b.mainLink.getD none).getD "—"
  { rank := rank
    title := b.h3.getD ""
    snippet := b.snippetEl.getD "—"
    url := href
    domain := urlparseNetloc href }

/-- The extraction loop of `extract_results`: walks candidate blocks in
document order, breaks once `rank > max_results`, skips a block lacking
link or heading without consuming a rank, emits `blockResult` otherwise. -/
def extractLoop (maxResults : Int) : List Block → Int → List SearchResult
  | [], _ => []
  | b :: rest, rank =>
    if rank > maxResults then []
    else
      match b.mainLink, b.h3 with
      | some _, some _ => blockResult rank b :: extractLoop maxResults rest (rank + 1)
      | some _, none => extractLoop maxResults rest rank
      | none, _ => extractLoop maxResults rest rank

/-- `extract_results(max_results)`: run the loop from rank 1 over the
candidate blocks of the parsed page. -/
def extract_results (blocks : List Block) (maxResults : Int) : List SearchResult :=
  extractLoop maxResults blocks 1

/-- Reference form of the loop's output: number a block list `k, k+1, …`
in order. -/
def rankFrom (k : Int) : List Block → List SearchResult
  | [] => []
  | b :: rest => blockResult k b :: rankFrom (k + 1) rest

theorem rankFrom_length (k : Int) (l : List Block) :
    (rankFrom k l).length = l.length := by
  induction l generalizing k with
  | nil => rfl
  | cons b rest ih => simp [rankFrom, ih]

theorem extractLoop_eq_rankFrom (maxResults : Int) (blocks : List Block)
    (rank : Int) :
    extractLoop maxResults blocks rank
      = rankFrom rank ((blocks.filter blockOk).take (maxResults - rank + 1).toNat) := by
  induction blocks generalizing rank with
  | nil => simp [extractLoop, rankFrom]
  | cons b rest ih =>
    by_cases hr : rank > maxResults
    · have htn : (maxResults - rank + 1).toNat = 0 := by omega
      rcases hml : b.mainLink with _ | href <;> rcases hh3 : b.h3 with _ | t <;>
        simp [extractLoop, hr, hml, hh3, htn, rankFrom]
    · have htn : (maxResults - rank + 1).toNat = (maxResults - rank).toNat + 1 := by
        omega
      have hstep : maxResults - (rank + 1) + 1 = maxResults - rank := by omega
      rcases hml : b.mainLink with _ | href <;> rcases hh3 : b.h3 with _ | t
      · have hok : blockOk b = false := by simp [blockOk, hml]
        simp [extractLoop, hr, hml, hh3, List.filter_cons, hok, ih]
      · have hok : blockOk b = false := by simp [blockOk, hml]
        simp [extractLoop, hr, hml, hh3, List.filter_cons, hok, ih]
      · have hok : blockOk b = false := by simp [blockOk, hml, hh3]
        simp [extractLoop, hr, hml, hh3, List.filter_cons, hok, ih]
      · have hok : blockOk b = true := by simp [blockOk, hml, hh3]
        simp [extractLoop, hr, hml, hh3, List.filter_cons, hok, htn, rankFrom,
          ih, hstep]

theorem extract_results_eq (blocks : List Block) (maxResults : Int) :
    extract_results blocks maxResults
      = rankFrom 1 ((blocks.filter blockOk).take maxResults.toNat) := by
  have h := extractLoop_eq_rankFrom maxResults blocks 1
  have h1 : maxResults - 1 + 1 = maxResults := by omega
  rw [extract_results, h, h1]

theorem rankFrom_map_rank (k : Int) (l : List Block) :
    (rankFrom k l).map SearchResult.rank
      = (List.range l.length).map (fun i : Nat => k + (i : Int)) := by
  induction l generalizing k with
  | nil => rfl
  | cons b rest ih =>
    rw [rankFrom, List.map_cons, List.length_cons, List.range_succ_eq_map,
      List.map_cons, List.map_map]
    refine List.cons_eq_cons.mpr ⟨by simp [blockResult], ?_⟩
    rw [ih]
    apply List.map_congr_left
    intro i _
    simp only [Function.comp_apply, Nat.succ_eq_add_one]
    push_cast
    omega

theorem rankFrom_mem (k : Int) (l : List Block) (r : SearchResult)
    (h : r ∈ rankFrom k l) : ∃ b ∈ l, ∃ j : Int, r = blockResult j b := by
  induction l generalizing k with
  | nil => simp [rankFrom] at h
  | cons b rest ih =>
    simp only [rankFrom, List.mem_cons] at h
    rcases h with h | h
    · exact ⟨b, by simp, k, h⟩
    · obtain ⟨b2, hb2, j, hj⟩ := ih (k + 1) h
      exact ⟨b2, by simp [hb2], j, hj⟩

theorem urlparseNetloc_of_no_authority (s : String) (h : hasAuthority s = false) :
    urlparseNetloc s = "" := by
  have h2 : ¬ ((schemeRest s.toList).take 2 = ['/', '/']) := by
    intro he
    rw [hasAuthority, he] at h
    simp at h
  simp only [urlparseNetloc, netlocList, h2, if_false]

/-- C1: for every parsed page (candidate block list) and every maxResults,
`extract_results` numbers its output `1..len` with no gaps, and the output
is exactly the blocks having both a primary link and a heading, in document
order, truncated to maxResults — a block lacking either is skipped without
consuming a rank slot. -/
theorem extract_results_rank_law (blocks : List Block) (maxResults : Int) :
    (extract_results blocks maxResults).map SearchResult.rank
      = (List.range (extract_results blocks maxResults).length).map
          (fun i : Nat => (i : Int) + 1)
    ∧ extract_results blocks maxResults
      = rankFrom 1 ((blocks.filter blockOk).take maxResults.toNat) := by
  have he := extract_results_eq blocks maxResults
  refine ⟨?_, he⟩
  rw [he, rankFrom_map_rank, rankFrom_length]
  apply List.map_congr_left
  intro i _
  omega

/-- C2 counterexample: `max_results` is a Python `int`, and for the legal
argument `-1` the empty output has length `0 > -1`, so
`len(results) ≤ maxResults` fails as stated for every maxResults. -/
theorem extract_results_length_claim_cex :
    ¬ (((extract_results [] (-1 : Int)).length : Int) ≤ -1) := by decide

/-- C2 amended: the output length is at most `max maxResults 0`; in
particular `len(results) ≤ maxResults` whenever `maxResults ≥ 0`, and the
output is empty when `maxResults ≤ 0`. -/
theorem extract_results_length_le (blocks : List Block) (maxResults : Int) :
    ((extract_results blocks maxResults).length : Int) ≤ max maxResults 0 := by
  have h1 : (extract_results blocks maxResults).length
      = ((blocks.filter blockOk).take maxResults.toNat).length := by
    rw [extract_results_eq, rankFrom_length]
  have h2 : ((blocks.filter blockOk).take maxResults.toNat).length
      ≤ maxResults.toNat := by
    exact List.length_take_le maxResults.toNat (blocks.filter blockOk)
  omega

/-- C3: every emitted result's `domain` is `urlparse(url).netloc`: the host
component when `url` is a well-formed absolute URL, and the empty string
when `url` is empty or carries no parseable authority. -/
theorem extract_results_domain_law (blocks : List Block) (maxResults : Int)
    (r : SearchResult) (hr : r ∈ extract_results blocks maxResults) :
    (wellFormedAbsoluteUrl r.url = true → r.domain = urlHost r.url)
    ∧ ((r.url = "" ∨ hasAuthority r.url = false) → r.domain = "") := by
  rw [extract_results_eq] at hr
  obtain ⟨b, _, j, rfl⟩ := rankFrom_mem _ _ _ hr
  have hd : (blockResult j b).domain = urlparseNetloc (blockResult j b).url := rfl
  constructor
  · intro _
    exact hd
  · intro h
    rcases h with h | h
    · rw [hd, h]
      rfl
    · rw [hd]
      exact urlparseNetloc_of_no_authority _ h

/-- A well-formed candidate block used as a concrete instance. -/
def exampleBlock : Block :=
  { mainLink := some (some "https://example.com/a")
    h3 := some "Example"
    snippetEl := some "Snippet" }

/-- The record `extract_results` emits for `exampleBlock`. -/
def exampleResult : SearchResult :=
  { rank := 1, title := "Example", snippet := "Snippet"
    url := "https://example.com/a", domain := "example.com" }

theorem extract_results_domain_law_witness :
    (wellFormedAbsoluteUrl exampleResult.url = true
        → exampleResult.domain = urlHost exampleResult.url)
    ∧ ((exampleResult.url = "" ∨ hasAuthority exampleResult.url = false)
        → exampleResult.domain = "") :=
  extract_results_domain_law [exampleBlock] 10 exampleResult (by decide)

/-- A candidate block with link and heading but no snippet-class match. -/
def noSnippetBlock : Block :=
  { mainLink := some (some "https://example.com/a")
    h3 := some "Example"
    snippetEl := none }

/-- The record `extract_results` emits for `noSnippetBlock`. -/
def noSnippetResult : SearchResult :=
  { rank := 1, title := "Example", snippet := "—"
    url := "https://example.com/a", domain := "example.com" }

/-- C4 counterexample: for a block whose snippet query matches nothing, the
emitted snippet is the em-dash placeholder `"—"`, not the empty string. -/
theorem extract_snippet_default_cex :
    noSnippetBlock.snippetEl = none
    ∧ ¬ (∀ r ∈ extract_results [noSnippetBlock] 10, r.snippet = "") := by
  exact ⟨rfl, by decide⟩

/-- C4 amended: every emitted result's snippet is its block's first
snippet-class match, defaulting to `"—"` (an em dash, not the empty string)
when no descriptor matches. -/
theorem extract_snippet_default (blocks : List Block) (maxResults : Int)
    (r : SearchResult) (hr : r ∈ extract_results blocks maxResults) :
    ∃ b ∈ blocks, blockOk b = true ∧ r.snippet = b.snippetEl.getD "—"
      ∧ (b.snippetEl = none → r.snippet = "—") := by
  rw [extract_results_eq] at hr
  obtain ⟨b, hb, j, rfl⟩ := rankFrom_mem _ _ _ hr
  have hb2 : b ∈ blocks.filter blockOk := List.take_subset _ _ hb
  rw [List.mem_filter] at hb2
  refine ⟨b, hb2.1, hb2.2, rfl, ?_⟩
  intro hn
  simp [blockResult, hn]

theorem extract_snippet_default_witness :
    ∃ b ∈ [noSnippetBlock], blockOk b = true
      ∧ noSnippetResult.snippet = b.snippetEl.getD "—"
      ∧ (b.snippetEl = none → noSnippetResult.snippet = "—") :=
  extract_snippet_default [noSnippetBlock] 10 noSnippetResult (by decide)

/-! ### Session lifecycle (`__init__` lines 79-80, `start` lines 154-162,
`stop` lines 164-174, `SafeChromeQuitMixin._safe_quit` lines 45-69)

Driver handles are numbered; teardown is modelled as the list of actions
attempted on the driver.  Every `try/except` in `_safe_quit` swallows its
exception, so each action is attempted regardless of earlier failures; the
environment records whether the driver's `service`/`service.process`
attributes are reachable (the condition guarding the final kill). -/

/-- One teardown action `_safe_quit` attempts on a driver handle. -/
inductive DriverAction where
  | close (driver : Nat)
  | quit (driver : Nat)
  | killProcess (driver : Nat)
deriving DecidableEq, Repr

/-- Environment for `_safe_quit`: whether `getattr(driver, "service")` and
`service.process` are non-`None` for a given driver handle. -/
structure QuitEnv where
  hasService : Nat → Bool
  hasProcess : Nat → Bool

/-- `SafeChromeQuitMixin._safe_quit`: a no-op on a null driver; otherwise
attempts `close`, then `quit`, then — only if the service subprocess handle
is reachable — kills that subprocess.  Each step is independently guarded,
so all are attempted. -/
def safe_quit (env : QuitEnv) (driver : Option Nat) : List DriverAction :=
  match driver with
  | none => []
  | some d =>
    [DriverAction.close d, DriverAction.quit d]
      ++ (if env.hasService d && env.hasProcess d then [DriverAction.killProcess d] else [])

/-- The scraper's lifecycle-relevant state: `self.driver` and
`self._quit_called`. -/
structure ScraperState where
  driver : Option Nat
  quitCalled : Bool
deriving DecidableEq, Repr

/-- `__init__`: `self.driver = None`, `self._quit_called = False`. -/
def initState : ScraperState :=
  { driver := none, quitCalled := false }

/-- `stop()`: if `_quit_called` is already set, return immediately with no
teardown; otherwise set the flag, run `_safe_quit` on the current driver,
and null the driver.  Returns the new state and the teardown actions
performed. -/
def stop (env : QuitEnv) (s : ScraperState) : ScraperState × List DriverAction :=
  if s.quitCalled then (s, [])
  else ({ driver := none, quitCalled := true }, safe_quit env s.driver)

/-- `start()` in its successful case: installs the freshly created driver
handle.  It never touches `_quit_called`. -/
def start (s : ScraperState) (newDriver : Nat) : ScraperState :=
  { s with driver := some newDriver }

/-- C5: `stop` is idempotent — the first call sets the already-stopped
flag, a second call in succession is a no-op returning no teardown actions;
the no-op is decided by the flag alone (any driver value with the flag set
is left untouched), and `stop` on the initial null-driver state (start
never completed) performs no driver teardown. -/
theorem stop_idempotent (env : QuitEnv) (s : ScraperState) :
    ((stop env s).1).quitCalled = true
    ∧ stop env (stop env s).1 = ((stop env s).1, [])
    ∧ (∀ d : Option Nat,
        stop env { driver := d, quitCalled := true }
          = ({ driver := d, quitCalled := true }, []))
    ∧ stop env initState = ({ driver := none, quitCalled := true }, []) := by
  refine ⟨?_, ?_, ?_, ?_⟩
  · by_cases h : s.quitCalled <;> simp [stop, h]
  · by_cases h : s.quitCalled <;> simp [stop, h]
  · intro d
    simp [stop]
  · simp [stop, initState, safe_quit]

/-- C10: `start` never clears the already-stopped flag, so once `stop` has
run, every later `stop` — even after a new `start` installed a fresh
driver — performs no teardown and leaves the new driver handle alive. -/
theorem stop_flag_never_cleared (env : QuitEnv) (s : ScraperState) (d : Nat) :
    (start s d).quitCalled = s.quitCalled
    ∧ (stop env (start (stop env s).1 d)).2 = []
    ∧ ((stop env (start (stop env s).1 d)).1).driver = some d := by
  refine ⟨rfl, ?_, ?_⟩
  · by_cases h : s.quitCalled <;> simp [stop, start, h]
  · by_cases h : s.quitCalled <;> simp [stop, start, h]

/-! ### Domain probing (`_try_open_domain_variations`, lines 176-210)

For each candidate base address in order the code navigates (which may
raise), waits for the combined input-selector CSS to become present, and on
timeout re-polls each selector once; any failure is caught, recorded as
`last_exc`, and the loop continues with the next candidate.  The first
candidate on which an input-surface match is present returns immediately
as `(base, None)`; if every candidate fails the result is
`(None, last_exc)`.  The per-candidate environment records which external
steps succeed. -/

/-- Environment for one probing run over candidates of type `α` with
exceptions of type `ε`. -/
structure ProbeEnv (α ε : Type) where
  /-- `driver.get(url)` raises for this candidate. -/
  navFails : α → Option ε
  /-- the `WebDriverWait` on the combined selector CSS finds a match. -/
  waitPresent : α → Bool
  /-- the post-timeout synchronous re-poll finds elements for some selector. -/
  repollFound : α → Bool
  /-- the `TimeoutException("No search input on …")` raised otherwise. -/
  timeoutExc : α → ε

/-- Outcome of probing one candidate: `none` when an input-surface match is
present (success), `some e` when the attempt failed with exception `e`. -/
def candidateOutcome {α ε : Type} (env : ProbeEnv α ε) (base : α) : Option ε :=
  match env.navFails base with
  | some e => some e
  | none =>
    if env.waitPresent base then none
    else if env.repollFound base then none
    else some (env.timeoutExc base)

/-- The probing loop: first success returns `(some base, none)` at once;
a failure records its exception as the last-seen error and continues. -/
def tryOpenLoop {α ε : Type} (env : ProbeEnv α ε) :
    List α → Option ε → Option α × Option ε
  | [], lastExc => (none, lastExc)
  | base :: rest, _ =>
    match candidateOutcome env base with
    | none => (some base, none)
    | some e => tryOpenLoop env rest (some e)

/-- `_try_open_domain_variations`: run the loop over the candidate list
with `last_exc = None`. -/
def tryOpenDomainVariations {α ε : Type} (env : ProbeEnv α ε)
    (candidates : List α) : Option α × Option ε :=
  tryOpenLoop env candidates none

/-- The last-seen error after consuming a list of all-failing candidates. -/
def lastErrAfter {α ε : Type} (env : ProbeEnv α ε) (candidates : List α)
    (lastExc : Option ε) : Option ε :=
  match candidates.getLast? with
  | none => lastExc
  | some x => candidateOutcome env x

theorem tryOpenLoop_skips_failures {α ε : Type} (env : ProbeEnv α ε)
    (pre : List α) (c : α) (post : List α) (lastExc : Option ε)
    (hpre : ∀ x ∈ pre, (candidateOutcome env x).isSome = true)
    (hc : candidateOutcome env c = none) :
    tryOpenLoop env (pre ++ c :: post) lastExc = (some c, none) := by
  induction pre generalizing lastExc with
  | nil => simp [tryOpenLoop, hc]
  | cons x rest ih =>
    have hx := hpre x (by simp)
    obtain ⟨e, he⟩ := Option.isSome_iff_exists.mp hx
    rw [List.cons_append, tryOpenLoop, he]
    exact ih (some e) (fun y hy => hpre y (List.mem_cons_of_mem x hy))

theorem tryOpenLoop_all_fail {α ε : Type} (env : ProbeEnv α ε)
    (candidates : List α) (lastExc : Option ε)
    (hall : ∀ x ∈ candidates, (candidateOutcome env x).isSome = true) :
    tryOpenLoop env candidates lastExc
      = (none, lastErrAfter env candidates lastExc) := by
  induction candidates generalizing lastExc with
  | nil => simp [tryOpenLoop, lastErrAfter]
  | cons x rest ih =>
    have hx := hall x (by simp)
    obtain ⟨e, he⟩ := Option.isSome_iff_exists.mp hx
    rw [tryOpenLoop, he]
    show tryOpenLoop env rest (some e) = _
    rw [ih (some e) (fun y hy => hall y (List.mem_cons_of_mem x hy))]
    rcases hrest : rest with _ | ⟨y, ys⟩
    · simp [lastErrAfter, ← he]
    · obtain ⟨z, hz⟩ := Option.isSome_iff_exists.mp
        (List.getLast?_isSome.mpr (List.cons_ne_nil y ys))
      simp [lastErrAfter, hz]

/-- C6: probing evaluates candidates strictly in list order — with every
candidate before `c` failing and an input-surface match present on `c`,
the result is `(some c, none)` whatever follows `c` (later candidates are
never tried); and when every candidate fails, the result is no access
point together with the last-seen error. -/
theorem try_open_first_success_wins {α ε : Type} (env : ProbeEnv α ε)
    (pre : List α) (c : α) (post post2 : List α) (candidates : List α)
    (hpre : ∀ x ∈ pre, (candidateOutcome env x).isSome = true)
    (hc : candidateOutcome env c = none)
    (hall : ∀ x ∈ candidates, (candidateOutcome env x).isSome = true) :
    tryOpenDomainVariations env (pre ++ c :: post) = (some c, none)
    ∧ tryOpenDomainVariations env (pre ++ c :: post)
        = tryOpenDomainVariations env (pre ++ c :: post2)
    ∧ tryOpenDomainVariations env candidates
        = (none, lastErrAfter env candidates none) := by
  refine ⟨tryOpenLoop_skips_failures env pre c post none hpre hc, ?_, ?_⟩
  · rw [tryOpenDomainVariations, tryOpenDomainVariations,
      tryOpenLoop_skips_failures env pre c post none hpre hc,
      tryOpenLoop_skips_failures env pre c post2 none hpre hc]
  · exact tryOpenLoop_all_fail env candidates none hall

/-- A concrete probing environment over `String` candidates and `Nat`
exception codes: navigation to `"https://www.google.com"` raises (code 7),
the input surface is present only on `"https://www.google.co.uk"`, and the
re-poll never finds anything (timeout code 3). -/
def probeEnvA : ProbeEnv String Nat :=
  { navFails := fun b => if b == "https://www.google.com" then some 7 else none
    waitPresent := fun b => b == "https://www.google.co.uk"
    repollFound := fun _ => false
    timeoutExc := fun _ => 3 }

theorem try_open_first_success_wins_witness :
    tryOpenDomainVariations probeEnvA
        ["https://www.google.com", "https://www.google.co.uk", "https://www.google.de"]
      = (some "https://www.google.co.uk", none)
    ∧ tryOpenDomainVariations probeEnvA
        ["https://www.google.com", "https://www.google.co.uk", "https://www.google.de"]
      = tryOpenDomainVariations probeEnvA
          ["https://www.google.com", "https://www.google.co.uk"]
    ∧ tryOpenDomainVariations probeEnvA ["https://www.google.com"]
      = (none, lastErrAfter probeEnvA ["https://www.google.com"] none) :=
  try_open_first_success_wins probeEnvA
    ["https://www.google.com"] "https://www.google.co.uk"
    ["https://www.google.de"] [] ["https://www.google.com"]
    (by decide) (by decide) (by decide)

/-! ### Consent resolver (`_accept_cookies_resilient`, lines 212-259)

A page is modelled by, per cookie selector, the outcome of
`find_elements` (`none` = it raised, `some l` = the elements found), plus
the iframe enumeration (`none` = it raised) with the same per-selector
data inside each frame, and whether switching into the frame succeeds.
Elements carry `is_displayed`, `is_enabled`, and whether `click()`
succeeds; every exception is swallowed, so the resolver is a total
function returning the element it clicked, if any (the code returns the
boolean `isSome` of that). -/

/-- One element returned by a consent selector. -/
structure ConsentElem where
  displayed : Bool
  enabled : Bool
  clickOk : Bool
deriving DecidableEq, Repr

/-- An inline frame: whether `switch_to.frame` succeeds, and the consent
selector outcomes inside it. -/
structure ConsentFrame where
  switchOk : Bool
  selectors : List (Option (List ConsentElem))
deriving DecidableEq, Repr

/-- The page state the resolver scans: per-selector outcomes in the
top-level document, and the iframe enumeration. -/
structure ConsentPage where
  topSelectors : List (Option (List ConsentElem))
  iframes : Option (List ConsentFrame)
deriving DecidableEq, Repr

/-- Scan the elements of one selector: click the first displayed and
enabled one; a failing click is logged and scanning continues. -/
def clickScan : List ConsentElem → Option ConsentElem
  | [] => none
  | e :: rest =>
    if e.displayed && e.enabled then
      if e.clickOk then some e else clickScan rest
    else clickScan rest

/-- Scan the selector chain: a raising `find_elements` abandons that
selector, a successful click stops the scan. -/
def selectorScan : List (Option (List ConsentElem)) → Option ConsentElem
  | [] => none
  | none :: rest => selectorScan rest
  | some elems :: rest =>
    match clickScan elems with
    | some e => some e
    | none => selectorScan rest

/-- Scan each iframe in turn: a failing `switch_to.frame` skips the frame;
inside a frame the same selector chain is scanned. -/
def frameScan : List ConsentFrame → Option ConsentElem
  | [] => none
  | fr :: rest =>
    if fr.switchOk then
      match selectorScan fr.selectors with
      | some e => some e
      | none => frameScan rest
    else frameScan rest

/-- `_accept_cookies_resilient`: try the selector chain on the top-level
document, then inside each iframe; the Python function returns `True`
exactly when this returns `some` clicked element, and `False` otherwise —
it is total (every exception at every step is swallowed). -/
def accept_cookies_resilient (p : ConsentPage) : Option ConsentElem :=
  match selectorScan p.topSelectors with
  | some e => some e
  | none =>
    match p.iframes with
    | none => none
    | some frames => frameScan frames

/-- A consent element that is visible, enabled and clickable. -/
def clickableElem (e : ConsentElem) : Bool :=
  e.displayed && e.enabled && e.clickOk

/-- A selector outcome holding a clickable element. -/
def selectorHasClickable : Option (List ConsentElem) → Bool
  | none => false
  | some l => l.any clickableElem

/-- An accessible frame holding a clickable element. -/
def frameHasClickable (fr : ConsentFrame) : Bool :=
  fr.switchOk && fr.selectors.any selectorHasClickable

/-- The page offers a dismissable consent element: a visible, enabled,
successfully clickable element reachable in the top-level document or in
some accessible inline frame. -/
def pageHasClickable (p : ConsentPage) : Bool :=
  p.topSelectors.any selectorHasClickable
    || (match p.iframes with
        | none => false
        | some frames => frames.any frameHasClickable)

theorem clickScan_isSome (l : List ConsentElem) :
    (clickScan l).isSome = l.any clickableElem := by
  induction l with
  | nil => rfl
  | cons e rest ih =>
    by_cases hd : e.displayed && e.enabled
    · by_cases hc : e.clickOk
      · simp [clickScan, hd, hc, clickableElem]
      · simp [clickScan, hd, hc, clickableElem, ih]
    · simp [clickScan, hd, clickableElem, ih, Bool.and_assoc]

theorem clickScan_clicked (l : List ConsentElem) :
    (clickScan l).all clickableElem = true := by
  induction l with
  | nil => rfl
  | cons e rest ih =>
    by_cases hd : e.displayed && e.enabled
    · by_cases hc : e.clickOk
      · simp [clickScan, hd, hc, clickableElem, hd.symm ▸ hd]
      · simp [clickScan, hd, hc, ih]
    · simp [clickScan, hd, ih]

theorem selectorScan_isSome (l : List (Option (List ConsentElem))) :
    (selectorScan l).isSome = l.any selectorHasClickable := by
  induction l with
  | nil => rfl
  | cons o rest ih =>
    rcases o with _ | elems
    · simp [selectorScan, selectorHasClickable, ih]
    · rcases hcs : clickScan elems with _ | e
      · have h := clickScan_isSome elems
        rw [hcs] at h
        simp [selectorScan, hcs, selectorHasClickable, ← h, ih]
      · have h := clickScan_isSome elems
        rw [hcs] at h
        simp [selectorScan, hcs, selectorHasClickable, ← h]

theorem selectorScan_clicked (l : List (Option (List ConsentElem))) :
    (selectorScan l).all clickableElem = true := by
  induction l with
  | nil => rfl
  | cons o rest ih =>
    rcases o with _ | elems
    · simpa [selectorScan] using ih
    · rcases hcs : clickScan elems with _ | e
      · simpa [selectorScan, hcs] using ih
      · have h := clickScan_clicked elems
        rw [hcs] at h
        simpa [selectorScan, hcs] using h

theorem frameScan_isSome (l : List ConsentFrame) :
    (frameScan l).isSome = l.any frameHasClickable := by
  induction l with
  | nil => rfl
  | cons fr rest ih =>
    by_cases hs : fr.switchOk
    · rcases hss : selectorScan fr.selectors with _ | e
      · have h := selectorScan_isSome fr.selectors
        rw [hss] at h
        simp [frameScan, hs, hss, frameHasClickable, ← h, ih]
      · have h := selectorScan_isSome fr.selectors
        rw [hss] at h
        simp [frameScan, hs, hss, frameHasClickable, ← h]
    · simp [frameScan, hs, frameHasClickable, ih]

theorem frameScan_clicked (l : List ConsentFrame) :
    (frameScan l).all clickableElem = true := by
  induction l with
  | nil => rfl
  | cons fr rest ih =>
    by_cases hs : fr.switchOk
    · rcases hss : selectorScan fr.selectors with _ | e
      · simpa [frameScan, hs, hss] using ih
      · have h := selectorScan_clicked fr.selectors
        rw [hss] at h
        simpa [frameScan, hs, hss] using h
    · simpa [frameScan, hs] using ih

/-- C9: the consent resolver is a total function on every page state (all
exceptions are swallowed, none propagates); it reports a dismissal exactly
when the page offers a reachable, visible, enabled element whose click
succeeds, and whatever it clicked was such an element — otherwise it
reports `false` (`none`). -/
theorem accept_cookies_resilient_law (p : ConsentPage) :
    ((accept_cookies_resilient p).isSome = pageHasClickable p)
    ∧ (accept_cookies_resilient p).all clickableElem = true := by
  constructor
  · rcases hts : selectorScan p.topSelectors with _ | e
    · have h := selectorScan_isSome p.topSelectors
      rw [hts] at h
      rcases hif : p.iframes with _ | frames
      · simp [accept_cookies_resilient, hts, hif, pageHasClickable, ← h]
      · simp [accept_cookies_resilient, hts, hif, pageHasClickable, ← h,
          frameScan_isSome]
    · have h := selectorScan_isSome p.topSelectors
      rw [hts] at h
      simp [accept_cookies_resilient, hts, pageHasClickable, ← h]
  · rcases hts : selectorScan p.topSelectors with _ | e
    · rcases hif : p.iframes with _ | frames
      · simp [accept_cookies_resilient, hts, hif]
      · simpa [accept_cookies_resilient, hts, hif] using frameScan_clicked frames
    · have h := selectorScan_clicked p.topSelectors
      rw [hts] at h
      simpa [accept_cookies_resilient, hts] using h

/-! ### Direct search URL (`_direct_search`, lines 344-364) and query
submission (`search`, lines 366-446)

`_direct_search` builds
`https://www.google.com/search?` + `urlencode(params, quote_via=quote_plus)`
with `params = {"q": query, "hl": lang.split("-")[0]}` plus
`"gl": lang.split("-")[-1]` when the language contains `-`, then navigates
there.  `quote_plus` keeps ASCII alphanumerics and `_ . - ~`, turns a
space into `+` and percent-encodes all other characters byte-wise over
UTF-8 with uppercase hex digits. -/

/-- Characters `quote_plus` never encodes (`_ALWAYS_SAFE`). -/
def alwaysSafeChar (c : Char) : Bool :=
  ('A' ≤ c && c ≤ 'Z') || ('a' ≤ c && c ≤ 'z') || ('0' ≤ c && c ≤ '9')
    || c == '_' || c == '.' || c == '-' || c == '~'

/-- The UTF-8 encoding of one character, as byte values. -/
def utf8Bytes (c : Char) : List Nat :=
  let n := c.toNat
  if n < 128 then [n]
  else if n < 2048 then [192 + n / 64, 128 + n % 64]
  else if n < 65536 then
    [224 + n / 4096, 128 + (n / 64) % 64, 128 + n % 64]
  else
    [240 + n / 262144, 128 + (n / 4096) % 64, 128 + (n / 64) % 64, 128 + n % 64]

/-- Uppercase hexadecimal digit for a value below 16. -/
def hexDigit (n : Nat) : Char :=
  if n < 10 then Char.ofNat (48 + n) else Char.ofNat (55 + n)

/-- Percent-encoding of one byte: `%XX` with uppercase hex. -/
def percentByte (b : Nat) : List Char :=
  ['%', hexDigit (b / 16), hexDigit (b % 16)]

/-- `quote_plus` on one character. -/
def quotePlusChar (c : Char) : List Char :=
  if alwaysSafeChar c then [c]
  else if c == ' ' then ['+']
  else ((utf8Bytes c).map percentByte).flatten

/-- Model of `urllib.parse.quote_plus`. -/
def quote_plus (s : String) : String :=
  String.mk ((s.toList.map quotePlusChar).flatten)

/-- Model of `urllib.parse.urlencode(params, quote_via=quote_plus)` on an
ordered association list (Python dicts preserve insertion order): the
`k=v` pairs joined by `&`. -/
def urlencode (params : List (String × String)) : String :=
  match params with
  | [] => ""
  | [p] => quote_plus p.1 ++ "=" ++ quote_plus p.2
  | p :: rest => quote_plus p.1 ++ "=" ++ quote_plus p.2 ++ "&" ++ urlencode rest

/-- Python `str.split(sep)` for a one-character separator, accumulator
form. -/
def splitOnCharAux (sep : Char) : List Char → List Char → List (List Char)
  | [], acc => [acc.reverse]
  | c :: rest, acc =>
    if c == sep then acc.reverse :: splitOnCharAux sep rest []
    else splitOnCharAux sep rest (c :: acc)

/-- Python `s.split(sep)` for a one-character separator: always a
non-empty list of pieces. -/
def pySplit (s : String) (sep : Char) : List String :=
  (splitOnCharAux sep s.toList []).map String.mk

/-- The locale parameters: `hl` is the part of `preferred_lang` before the
first `-`; `gl` (present only when the language contains `-`) is the part
after the last `-` (`split("-")[0]` and `split("-")[-1]`). -/
def langParams (preferredLang : String) : List (String × String) :=
  let parts := pySplit preferredLang '-'
  if preferredLang.toList.contains '-' then
    [("hl", parts.headD ""), ("gl", parts.getLastD "")]
  else
    [("hl", parts.headD "")]

/-- The URL `_direct_search` constructs. -/
def directSearchUrl (query preferredLang : String) : String :=
  "https://www.google.com/search?" ++ urlencode (("q", query) :: langParams preferredLang)

/-- The query string of a URL: everything after the first `?`. -/
def queryStringOf (url : String) : String :=
  String.mk ((url.toList.dropWhile (fun c => !(c == '?'))).drop 1)

/-- `_direct_search` navigates the driver to the constructed URL (the
subsequent wait for a results container swallows its timeout). -/
structure DirectSearchStep where
  navigatedUrl : String
deriving DecidableEq, Repr

/-- Model of `_direct_search(query)`. -/
def direct_search (query preferredLang : String) : DirectSearchStep :=
  { navigatedUrl := directSearchUrl query preferredLang }

/-- How `search` ends: interactive submission succeeded, or the run fell
back to navigating a direct query URL.  `search` catches every exception
of the interactive path (`except Exception` at line 442), so these are the
only outcomes. -/
inductive SearchOutcome where
  | submitted
  | fellBackToDirectUrl (url : String)
deriving DecidableEq, Repr

/-- Environment for one `search` call: what `_locate_search_input`
returned, and which interaction primitives succeed. -/
structure SearchEnv where
  /-- `_locate_search_input()`: the located element's tag name, or `none`
  when every locator tier matched nothing visible (`(None, None)`). -/
  locateResult : Option String
  /-- native `send_keys` plus `ENTER` succeeds on the element. -/
  nativeKeysOk : Bool
  /-- the scripted value-assignment path (`_set_value_js`) succeeds. -/
  jsSetOk : Bool

/-- The interactive branch of `search` (the body of its big `try`): an
input/textarea element takes native keystrokes; any other element takes
the script-injection path, retrying with native keystrokes if the scripted
assignment fails; `.error` means the branch raised. -/
def submitInteractive (env : SearchEnv) (tag : String) : Except Unit Unit :=
  if tag == "input" || tag == "textarea" then
    if env.nativeKeysOk then Except.ok () else Except.error ()
  else if env.jsSetOk then Except.ok ()
  else if env.nativeKeysOk then Except.ok ()
  else Except.error ()

/-- `search(query)`: when the locator returns `(None, None)` it falls back
to `_direct_search` at once; otherwise it runs the interactive branch and
falls back to `_direct_search` if that branch raises.  Total: no exception
reaches the caller. -/
def search (env : SearchEnv) (query preferredLang : String) : SearchOutcome :=
  match env.locateResult with
  | none => SearchOutcome.fellBackToDirectUrl (direct_search query preferredLang).navigatedUrl
  | some tag =>
    match submitInteractive env tag with
    | Except.ok _ => SearchOutcome.submitted
    | Except.error _ =>
      SearchOutcome.fellBackToDirectUrl (direct_search query preferredLang).navigatedUrl

/-- C7: when the Input Locator returns `(None, None)`, `search` still
completes the run by navigating to the direct query URL, and on every
environment `search` returns an outcome — submitted or fell-back — never
a submission-stage exception. -/
theorem search_locator_fallback (env : SearchEnv) (query preferredLang : String)
    (h : env.locateResult = none) :
    search env query preferredLang
        = SearchOutcome.fellBackToDirectUrl (directSearchUrl query preferredLang)
    ∧ ∀ env2 : SearchEnv,
        search env2 query preferredLang = SearchOutcome.submitted
        ∨ ∃ u, search env2 query preferredLang = SearchOutcome.fellBackToDirectUrl u := by
  constructor
  · rw [search, h]
    rfl
  · intro env2
    rcases h2 : env2.locateResult with _ | tag
    · exact Or.inr ⟨_, by rw [search, h2]⟩
    · rcases h3 : submitInteractive env2 tag with _ | u
      · exact Or.inr ⟨(direct_search query preferredLang).navigatedUrl,
          by simp [search, h2, h3]⟩
      · exact Or.inl (by simp [search, h2, h3])

theorem search_locator_fallback_witness :
    search { locateResult := none, nativeKeysOk := false, jsSetOk := false }
        "zumba" "de-DE"
      = SearchOutcome.fellBackToDirectUrl (directSearchUrl "zumba" "de-DE")
    ∧ ∀ env2 : SearchEnv,
        search env2 "zumba" "de-DE" = SearchOutcome.submitted
        ∨ ∃ u, search env2 "zumba" "de-DE" = SearchOutcome.fellBackToDirectUrl u :=
  search_locator_fallback
    { locateResult := none, nativeKeysOk := false, jsSetOk := false }
    "zumba" "de-DE" rfl

/-- C8: for the query `"zumba"` and locale `"de-DE"`, the direct-search
fallback navigates to a URL whose query string contains `q=zumba`, `hl=de`
and `gl=DE`. -/
theorem direct_search_zumba_de :
    "q=zumba".toList
        <:+: (queryStringOf (direct_search "zumba" "de-DE").navigatedUrl).toList
    ∧ "hl=de".toList
        <:+: (queryStringOf (direct_search "zumba" "de-DE").navigatedUrl).toList
    ∧ "gl=DE".toList
        <:+: (queryStringOf (direct_search "zumba" "de-DE").navigatedUrl).toList := by
  refine ⟨⟨[], "&hl=de&gl=DE".toList, by decide⟩,
    ⟨"q=zumba&".toList, "&gl=DE".toList, by decide⟩,
    ⟨"q=zumba&hl=de&".toList, [], by decide⟩⟩
